import Mathlib

/-!
# Verification of the PDF-chatbot front end (bablukpik/pdf-chatbot-frontend)

A shallow embedding of the browser chat front end, translated from the
TypeScript sources:

* the streaming chat session controller `handleSendMessage` together with its
  persistence helpers `saveMessages` and the mount-time rehydration effect
  (the richer component, the one the specification designates as
  authoritative);
* the upload client `handleFileUploadButtonClick` (file-upload component).

State updates performed through React's `setX` functions are modelled as
explicit state passing.  The `useEffect` that re-persists the message list on
every change of `messages` is folded into each message-list update
(`commitMessages`).  Values produced by the platform — `Date.now`, the random
message ids, the network outcome — are passed in as parameters.  A streamed
response body is a list of chunks, each chunk already split on newlines into
lines; the JSON parse of a `data: `-line is modelled by its outcome, the
`Payload` discriminant (`.malformed` standing for a payload on which
`JSON.parse` throws).
-/

/-- Message role, from the `role: "assistant" | "user"` field. -/
inductive Role where
  | user
  | assistant
deriving DecidableEq, Repr

/-- `metadata.loc` of a retrieved document. -/
structure DocLoc where
  pageNumber : Option Nat
deriving DecidableEq, Repr

/-- `metadata` of a retrieved document. -/
structure DocMetadata where
  loc : Option DocLoc
  source : Option String
deriving DecidableEq, Repr

/-- A source citation (`Doc` interface): a text snippet plus metadata. -/
structure Doc where
  pageContent : Option String
  metadata : Option DocMetadata
deriving DecidableEq, Repr

/-- A chat message (`Message` interface).  The timestamp is the epoch-millis
instant carried by the `Date`. -/
structure Message where
  id : String
  role : Role
  content : String
  documents : Option (List Doc)
  timestamp : Nat
  isStreaming : Option Bool
deriving DecidableEq, Repr

/-- The `StreamingState` of the live partial assistant answer. -/
structure StreamingState where
  isActive : Bool
  content : String
  messageId : String
deriving DecidableEq, Repr

/-- The reset `StreamingState` (`{ isActive: false, content: "", messageId: "" }`). -/
def inactiveStreaming : StreamingState := ⟨false, "", ""⟩

/-! ## Timestamp serialization

`JSON.stringify` renders a `Date` as a string and `new Date(s)` parses it
back to the same instant.  That pair lives in the platform, not in this
repository; we model it by a decimal rendering of the epoch-millis value,
which has the same shape (string-valued) and the same round-trip property.
The printer and parser are fuel-structural so that they reduce inside the
kernel. -/

/-- Big-endian decimal printer, accumulator style; `fuel` bounds recursion. -/
def natPrintAux : Nat → Nat → List Char → List Char
  | 0, _, acc => acc
  | fuel + 1, n, acc =>
    if n < 10 then Nat.digitChar n :: acc
    else natPrintAux fuel (n / 10) (Nat.digitChar (n % 10) :: acc)

/-- Numeric value of a decimal digit character. -/
def charDigitVal (c : Char) : Nat := c.toNat - 48

/-- Left-to-right decimal parser with accumulator. -/
def natParseAux : List Char → Nat → Nat
  | [], acc => acc
  | c :: cs, acc => natParseAux cs (acc * 10 + charDigitVal c)

/-- Serialize a timestamp the way `JSON.stringify` serializes the `Date`. -/
def dateToJSON (t : Nat) : String := ⟨natPrintAux (t + 1) t []⟩

/-- Rebuild a timestamp from its serialized form (`new Date(msg.timestamp)`). -/
def dateFromJSON (s : String) : Nat := natParseAux s.data 0

theorem charDigitVal_digitChar {d : Nat} (h : d < 10) :
    charDigitVal (Nat.digitChar d) = d := by
  interval_cases d <;> rfl

theorem natParseAux_natPrintAux (fuel : Nat) :
    ∀ n acc r, n < fuel →
      ∃ e, 0 < e ∧ natParseAux (natPrintAux fuel n acc) r = natParseAux acc (r * e + n) := by
  induction fuel with
  | zero => intro n acc r h; omega
  | succ f ih =>
    intro n acc r h
    by_cases h10 : n < 10
    · refine ⟨10, by omega, ?_⟩
      simp only [natPrintAux, if_pos h10, natParseAux, charDigitVal_digitChar h10]
    · have hn0 : 0 < n := by omega
      have hdiv : n / 10 < n := Nat.div_lt_self hn0 (by omega)
      obtain ⟨e, he, heq⟩ := ih (n / 10) (Nat.digitChar (n % 10) :: acc) r (by omega)
      refine ⟨e * 10, by positivity, ?_⟩
      simp only [natPrintAux, if_neg h10, heq, natParseAux,
        charDigitVal_digitChar (Nat.mod_lt n (show 0 < 10 by omega))]
      congr 1
      have hdm : n / 10 * 10 + n % 10 = n := by omega
      calc (r * e + n / 10) * 10 + n % 10
          = r * (e * 10) + (n / 10 * 10 + n % 10) := by ring
        _ = r * (e * 10) + n := by rw [hdm]

/-- The timestamp round trip: rehydration restores the serialized instant. -/
theorem dateFromJSON_dateToJSON (t : Nat) : dateFromJSON (dateToJSON t) = t := by
  obtain ⟨e, _, heq⟩ := natParseAux_natPrintAux (t + 1) t [] 0 (by omega)
  simpa [dateFromJSON, dateToJSON, natParseAux] using heq

/-! ## Local persistence -/

/-- A message as it sits in `localStorage` under `STORAGE_KEY`:
`JSON.stringify` has turned the `Date` into its string form, everything else
survives structurally. -/
structure StoredMessage where
  id : String
  role : Role
  content : String
  documents : Option (List Doc)
  timestamp : String
  isStreaming : Option Bool
deriving DecidableEq, Repr

/-- `STORAGE_KEY`-slot content: `none` models an absent key. -/
abbrev Storage := Option (List StoredMessage)

/-- `MAX_MESSAGES` from the chat component. -/
def MAX_MESSAGES : Nat := 20

/-- `messages.slice(-n)`: the at most `n` most recent entries. -/
def sliceLast (xs : List α) (n : Nat) : List α := xs.drop (xs.length - n)

/-- `JSON.stringify` of one message. -/
def serializeMessage (m : Message) : StoredMessage :=
  ⟨m.id, m.role, m.content, m.documents, dateToJSON m.timestamp, m.isStreaming⟩

/-- The rehydration map of the load effect: `{ ...msg, timestamp: new Date(msg.timestamp) }`. -/
def rehydrateMessage (sm : StoredMessage) : Message :=
  ⟨sm.id, sm.role, sm.content, sm.documents, dateFromJSON sm.timestamp, sm.isStreaming⟩

/-- `saveMessages`: persist the at most `MAX_MESSAGES` most recent messages. -/
def saveMessages (messages : List Message) : Storage :=
  some ((sliceLast messages MAX_MESSAGES).map serializeMessage)

/-- The load effect's read of the cache: parse and rehydrate every stored
message (an absent key leaves the list empty). -/
def loadStoredMessages (s : Storage) : List Message :=
  (s.getD []).map rehydrateMessage

theorem rehydrateMessage_serializeMessage (m : Message) :
    rehydrateMessage (serializeMessage m) = m := by
  simp [rehydrateMessage, serializeMessage, dateFromJSON_dateToJSON]

/-! ## Upload client -/

/-- `UploadStatus` of the file-upload component. -/
inductive UploadStatus where
  | idle
  | uploading
  | success
  | error
deriving DecidableEq, Repr

/-- The upload client's visible state: status plus its human-readable label. -/
structure UploadState where
  status : UploadStatus
  statusMessage : String
deriving DecidableEq, Repr

/-- The delay, in milliseconds, of the `setTimeout` that resets the upload
state (`3000` in the component). -/
def uploadResetDelayMs : Nat := 3000

/-- Events driving the upload client: the user selecting a file through the
hidden input (`false` = dialog dismissed without a file), the HTTP response
settling (`ok` = 2xx), and the reset timer firing. -/
inductive UploadEvent where
  | select (hasFile : Bool)
  | response (ok : Bool)
  | timerFire
deriving DecidableEq, Repr

/-- One step of the upload client, from `handleFileUploadButtonClick`:
the click target is disabled while `uploading`; a non-ok response trips the
fixed error message; the `setTimeout` callback resets to idle unconditionally
(the timer is never cancelled). -/
def uploadStep (s : UploadState) : UploadEvent → UploadState
  | .select true =>
      if s.status = .uploading then s else ⟨.uploading, "Uploading..."⟩
  | .select false => s
  | .response ok =>
      if ok then ⟨.success, "File uploaded successfully!"⟩
      else ⟨.error, "Upload failed. Please try again."⟩
  | .timerFire => ⟨.idle, "Upload PDF File"⟩

/-! ## Chat session controller -/

/-- The component state touched by one chat turn.  `storage` is the
`localStorage` slot; every `setMessages` is paired with the `useEffect` that
re-runs `saveMessages(messages)` on a change of `messages`
(see `commitMessages`).  `currentModelInfo` and the input box are omitted:
no claim mentions them and they feed no other state. -/
structure ChatState where
  messages : List Message
  storage : Storage
  error : Option String
  loading : Bool
  streaming : StreamingState
deriving DecidableEq, Repr

/-- The outcome of `JSON.parse` on the payload of a `data: `-line, by its
`type` discriminant.  `.stream`/`.docs`/`.error` carry their field as an
`Option` because the code guards on the field's truthiness (`.stream (some "")`
is the present-but-empty, falsy case).  `.malformed` stands for a payload on
which `JSON.parse` throws. -/
inductive Payload where
  | stream (content : Option String)
  | docs (documents : Option (List Doc))
  | modelData
  | done
  | errorEvent (message : Option String)
  | unknown (tag : String)
  | malformed
deriving DecidableEq, Repr

/-- One line of a decoded chunk.  `marker` is `line.startsWith("data: ")`;
for a marked line, `payload` is the parse outcome of `line.slice(6)`. -/
structure Line where
  marker : Bool
  payload : Payload
deriving DecidableEq, Repr

/-- How the body reads end, when no `done` event stops the loop first:
`reader.read()` reports `done` (connection closed), throws an `AbortError`
(user stop or a superseding submission), or throws a network error. -/
inductive Terminal where
  | readerClosed
  | aborted
  | netFailure (message : String)
deriving DecidableEq, Repr

/-- The outcome of the `fetch` and body acquisition. -/
inductive FetchOutcome where
  | fetchAborted
  | fetchFailure (message : String)
  | httpFailure (status : Nat)
  | noBody
  | ok (chunks : List (List Line)) (terminal : Terminal)
deriving DecidableEq, Repr

/-- `String.prototype.trim`: strip leading and trailing whitespace.  Defined
structurally over the character list so that it evaluates inside the kernel. -/
def strTrim (s : String) : String :=
  ⟨((s.data.dropWhile Char.isWhitespace).reverse.dropWhile Char.isWhitespace).reverse⟩

/-- `validateInput` from the chat component. -/
def validateInput (text : String) : Option String :=
  if (strTrim text).isEmpty then some "Message cannot be empty"
  else if text.length > 4000 then some "Message too long (max 4000 characters)"
  else none

/-- `setMessages` together with the `useEffect` that persists on every change
of `messages`. -/
def commitMessages (st : ChatState) (messages : List Message) : ChatState :=
  { st with messages := messages, storage := saveMessages messages }

/-- The context the read loop closes over: `messages` as captured at render
time (`msgs0`, stale — it does not include the optimistic user message), the
assistant message id, and the turn clock (every `new Date()` of the turn is
modelled with this one instant). -/
structure TurnCtx where
  msgs0 : List Message
  assistantId : String
  now : Nat
deriving Repr

/-- The loop accumulator: `fullContent`, `documents`, and the threaded state. -/
structure LoopAcc where
  fullContent : String
  documents : List Doc
  st : ChatState
deriving Repr

/-- Result of the read loop: `.finished` when a `done` event executed
`return`, `.cont` when the lines ran out. -/
inductive LoopOut where
  | finished (acc : LoopAcc)
  | cont (acc : LoopAcc)
deriving Repr

/-- The crash-recovery partial message written on each `stream` fragment. -/
def partialMessage (ctx : TurnCtx) (fullContent : String) (documents : List Doc) : Message :=
  ⟨ctx.assistantId, .assistant, fullContent, some documents, ctx.now, some true⟩

/-- One iteration of `for (const line of lines)`.  A line without the
`data: ` marker is skipped.  The `error` case's `throw` lands in the same
`catch` that swallows `JSON.parse` failures ("Ignore parsing errors for
incomplete chunks"), so it too leaves the state unchanged; only `done`
leaves the loop, via `return` (modelled as `.finished`, with the return
site's effects applied by the caller). -/
def lineStep (ctx : TurnCtx) (acc : LoopAcc) (line : Line) : LoopOut :=
  if !line.marker then .cont acc else
  match line.payload with
  | .stream (some s) =>
      if s.isEmpty then .cont acc
      else
        let full := acc.fullContent ++ s
        .cont ⟨full, acc.documents,
          { acc.st with
              streaming := ⟨true, full, ctx.assistantId⟩,
              storage := saveMessages (ctx.msgs0 ++ [partialMessage ctx full acc.documents]) }⟩
  | .stream none => .cont acc
  | .docs (some ds) => .cont ⟨acc.fullContent, ds, acc.st⟩
  | .docs none => .cont acc
  | .modelData => .cont acc
  | .done => .finished acc
  | .errorEvent _ => .cont acc
  | .unknown _ => .cont acc
  | .malformed => .cont acc

/-- The inner `for` loop over the lines of one chunk. -/
def processLines (ctx : TurnCtx) (acc : LoopAcc) : List Line → LoopOut
  | [] => .cont acc
  | l :: ls =>
    match lineStep ctx acc l with
    | .finished a => .finished a
    | .cont a => processLines ctx a ls

/-- The outer `while (true)` loop over the chunks the reader delivers. -/
def processChunks (ctx : TurnCtx) (acc : LoopAcc) : List (List Line) → LoopOut
  | [] => .cont acc
  | c :: cs =>
    match processLines ctx acc c with
    | .finished a => .finished a
    | .cont a => processChunks ctx a cs

/-- The `catch` branch for a non-abort error: surface the message, then
`setMessages((prev) => prev.slice(0, -1))` rolls back the last message. -/
def rollbackOnError (st : ChatState) (message : String) : ChatState :=
  commitMessages { st with error := some message } st.messages.dropLast

/-- The `finally` block: clear `loading` and the streaming state. -/
def finalizeTurn (st : ChatState) : ChatState :=
  { st with loading := false, streaming := inactiveStreaming }

/-- The streaming part of the turn, from the `setStreamingState` initialization
through the read loop to the turn's end.  On `.finished` — the `done` case —
build the assistant message, append it, clear the streaming state, persist
(first with the stale closure list, then through the effect on the fresh list)
and return through `finally`.  On `.cont` the reads ended instead: a closed
connection just falls out of the loop, an `AbortError` is caught and returns
silently, and a read failure lands in the generic `catch` (surface the error,
roll back the last message). -/
def streamTurn (ctx : TurnCtx) (st2 : ChatState) (chunks : List (List Line))
    (terminal : Terminal) : ChatState :=
  let st3 := { st2 with streaming := ⟨true, "", ctx.assistantId⟩ }
  match processChunks ctx ⟨"", [], st3⟩ chunks with
  | .finished acc =>
      let assistantMessage : Message :=
        ⟨ctx.assistantId, .assistant, acc.fullContent, some acc.documents, ctx.now, none⟩
      let st4 := { acc.st with
        streaming := inactiveStreaming,
        storage := saveMessages (ctx.msgs0 ++ [assistantMessage]) }
      finalizeTurn (commitMessages st4 (st4.messages ++ [assistantMessage]))
  | .cont acc =>
      match terminal with
      | .readerClosed => finalizeTurn acc.st
      | .aborted => finalizeTurn acc.st
      | .netFailure msg => finalizeTurn (rollbackOnError acc.st msg)

/-- `handleSendMessage`, one whole turn.  `userId`/`assistantId` stand for the
two `generateMessageId()` results and `now` for the turn's `new Date()`
instants; `outcome` is the network's behaviour. -/
def handleSendMessage (st : ChatState) (input : String) (userId assistantId : String)
    (now : Nat) (outcome : FetchOutcome) : ChatState :=
  let trimmed := strTrim input
  match validateInput trimmed with
  | some e => { st with error := some e }
  | none =>
    let st1 := { st with loading := true, error := none }
    let userMessage : Message := ⟨userId, .user, trimmed, none, now, none⟩
    let ctx : TurnCtx := ⟨st1.messages, assistantId, now⟩
    let st2 := commitMessages st1 (st1.messages ++ [userMessage])
    match outcome with
    | .fetchAborted => finalizeTurn st2
    | .fetchFailure msg => finalizeTurn (rollbackOnError st2 msg)
    | .httpFailure status =>
        finalizeTurn (rollbackOnError st2 ("API request failed with status " ++ toString status))
    | .noBody => finalizeTurn (rollbackOnError st2 "No response body available")
    | .ok chunks terminal => streamTurn ctx st2 chunks terminal

/-- The state of a freshly mounted session over an empty cache: the mount-time
persistence effect has written the empty list. -/
def initialChatState : ChatState :=
  ⟨[], saveMessages [], none, false, inactiveStreaming⟩

/-- Mounting a session over an existing cache: the load effect rehydrates the
stored messages and the persistence effect writes them straight back. -/
def loadSession (s : Storage) : ChatState :=
  let msgs := loadStoredMessages s
  ⟨msgs, saveMessages msgs, none, false, inactiveStreaming⟩

/-- States reachable by mounting, submitting turns (with arbitrary network
behaviour), and reloading the page over whatever the cache holds. -/
inductive Reachable : ChatState → Prop where
  | init : Reachable initialChatState
  | turn {st} (input userId assistantId : String) (now : Nat) (outcome : FetchOutcome) :
      Reachable st → Reachable (handleSendMessage st input userId assistantId now outcome)
  | reload {st} : Reachable st → Reachable (loadSession st.storage)

/-- States reachable within a single session: no reload step. -/
inductive ReachableNoReload : ChatState → Prop where
  | init : ReachableNoReload initialChatState
  | turn {st} (input userId assistantId : String) (now : Nat) (outcome : FetchOutcome) :
      ReachableNoReload st →
      ReachableNoReload (handleSendMessage st input userId assistantId now outcome)

/-- A marked `done` line: the only line that leaves the read loop. -/
def isDoneLine (l : Line) : Bool := l.marker && (l.payload matches .done)

/-- No line of any chunk is a `done` event. -/
def noDoneLines (chunks : List (List Line)) : Bool :=
  chunks.all (fun c => c.all (fun l => !isDoneLine l))

/-- A marked `stream` line whose `content` field is truthy: the lines that
extend the accumulated answer and rewrite the crash-recovery cache entry. -/
def isEffectiveStreamLine (l : Line) : Bool :=
  l.marker &&
    match l.payload with
    | .stream (some s) => !s.isEmpty
    | _ => false

/-- Some chunk carries an effective `stream` fragment. -/
def hasEffectiveStream (chunks : List (List Line)) : Bool :=
  chunks.any (fun c => c.any isEffectiveStreamLine)

/-- The persisted cache holds a partial (`isStreaming = true`) message. -/
def cacheHasStreamingPartial (st : ChatState) : Bool :=
  (st.storage.getD []).any (fun sm => sm.isStreaming == some true)

/-- The claimed conversation invariant: at most one message is marked
streaming, and no message before the last is. -/
def streamingInvariant (msgs : List Message) : Prop :=
  (msgs.filter (fun m => m.isStreaming == some true)).length ≤ 1 ∧
  ∀ m ∈ msgs.dropLast, m.isStreaming ≠ some true

/-! ## Loop lemmas -/

/-- The accumulator carried by either loop outcome. -/
def LoopOut.acc : LoopOut → LoopAcc
  | .finished a => a
  | .cont a => a

theorem lineStep_preserves (ctx : TurnCtx) (acc : LoopAcc) (l : Line) :
    ((lineStep ctx acc l).acc).st.messages = acc.st.messages ∧
    ((lineStep ctx acc l).acc).st.error = acc.st.error ∧
    ((lineStep ctx acc l).acc).st.loading = acc.st.loading := by
  obtain ⟨b, p⟩ := l
  cases b <;> cases p <;> simp [lineStep, LoopOut.acc]
  case true.stream content =>
    cases content with
    | none => simp
    | some s => by_cases hs : s.isEmpty <;> simp [hs]
  case true.docs documents =>
    cases documents <;> simp

theorem processLines_preserves (ctx : TurnCtx) (acc : LoopAcc) (ls : List Line) :
    ((processLines ctx acc ls).acc).st.messages = acc.st.messages ∧
    ((processLines ctx acc ls).acc).st.error = acc.st.error ∧
    ((processLines ctx acc ls).acc).st.loading = acc.st.loading := by
  induction ls generalizing acc with
  | nil => exact ⟨rfl, rfl, rfl⟩
  | cons l ls ih =>
    have hl := lineStep_preserves ctx acc l
    cases h : lineStep ctx acc l with
    | finished a =>
      simp only [h, LoopOut.acc] at hl
      simpa [processLines, h, LoopOut.acc] using hl
    | cont a =>
      simp only [h, LoopOut.acc] at hl
      have := ih a
      simp only [processLines, h]
      exact ⟨hl.1 ▸ this.1, hl.2.1 ▸ this.2.1, hl.2.2 ▸ this.2.2⟩

theorem processChunks_preserves (ctx : TurnCtx) (acc : LoopAcc) (chunks : List (List Line)) :
    ((processChunks ctx acc chunks).acc).st.messages = acc.st.messages ∧
    ((processChunks ctx acc chunks).acc).st.error = acc.st.error ∧
    ((processChunks ctx acc chunks).acc).st.loading = acc.st.loading := by
  induction chunks generalizing acc with
  | nil => exact ⟨rfl, rfl, rfl⟩
  | cons c cs ih =>
    have hc := processLines_preserves ctx acc c
    cases h : processLines ctx acc c with
    | finished a =>
      simp only [h, LoopOut.acc] at hc
      simpa [processChunks, h, LoopOut.acc] using hc
    | cont a =>
      simp only [h, LoopOut.acc] at hc
      have := ih a
      simp only [processChunks, h]
      exact ⟨hc.1 ▸ this.1, hc.2.1 ▸ this.2.1, hc.2.2 ▸ this.2.2⟩

theorem lineStep_cont_of_not_done (ctx : TurnCtx) (acc : LoopAcc) (l : Line)
    (h : isDoneLine l = false) :
    lineStep ctx acc l = .cont ((lineStep ctx acc l).acc) := by
  obtain ⟨b, p⟩ := l
  cases b <;> cases p <;> simp_all [lineStep, isDoneLine, LoopOut.acc]
  case true.stream content =>
    cases content with
    | none => simp
    | some s => by_cases hs : s.isEmpty <;> simp [hs]
  case true.docs documents =>
    cases documents <;> simp

theorem processLines_cont_of_noDone (ctx : TurnCtx) (acc : LoopAcc) (ls : List Line)
    (h : ls.all (fun l => !isDoneLine l) = true) :
    processLines ctx acc ls = .cont ((processLines ctx acc ls).acc) := by
  induction ls generalizing acc with
  | nil => rfl
  | cons l ls ih =>
    simp only [List.all_cons, Bool.and_eq_true, Bool.not_eq_true'] at h
    have hstep := lineStep_cont_of_not_done ctx acc l h.1
    rw [processLines, hstep]
    exact ih _ (by simpa using h.2)

theorem processChunks_cont_of_noDone (ctx : TurnCtx) (acc : LoopAcc)
    (chunks : List (List Line)) (h : noDoneLines chunks = true) :
    processChunks ctx acc chunks = .cont ((processChunks ctx acc chunks).acc) := by
  induction chunks generalizing acc with
  | nil => rfl
  | cons c cs ih =>
    simp only [noDoneLines, List.all_cons, Bool.and_eq_true] at h
    have hc := processLines_cont_of_noDone ctx acc c h.1
    rw [processChunks, hc]
    exact ih _ (by simp [noDoneLines, h.2])

theorem lineStep_malformed (ctx : TurnCtx) (acc : LoopAcc) (b : Bool) :
    lineStep ctx acc ⟨b, .malformed⟩ = .cont acc := by
  cases b <;> rfl

theorem processLines_insert_malformed (ctx : TurnCtx) (acc : LoopAcc) (b : Bool)
    (xs ys : List Line) :
    processLines ctx acc (xs ++ ⟨b, .malformed⟩ :: ys) = processLines ctx acc (xs ++ ys) := by
  induction xs generalizing acc with
  | nil => simp only [List.nil_append, processLines, lineStep_malformed]
  | cons l ls ih =>
    simp only [List.cons_append, processLines]
    cases lineStep ctx acc l with
    | finished a => rfl
    | cont a => exact ih a

theorem processChunks_insert_malformed (ctx : TurnCtx) (acc : LoopAcc) (b : Bool)
    (xs ys : List Line) (pre post : List (List Line)) :
    processChunks ctx acc (pre ++ (xs ++ ⟨b, .malformed⟩ :: ys) :: post)
      = processChunks ctx acc (pre ++ (xs ++ ys) :: post) := by
  induction pre generalizing acc with
  | nil =>
    simp only [List.nil_append, processChunks, processLines_insert_malformed]
  | cons c cs ih =>
    simp only [List.cons_append, processChunks]
    cases processLines ctx acc c with
    | finished a => rfl
    | cont a => exact ih a

/-! ## Cache lemmas -/

theorem mem_sliceLast_concat (xs : List α) (a : α) (n : Nat) (hn : 0 < n) :
    a ∈ sliceLast (xs ++ [a]) n := by
  unfold sliceLast
  rw [List.drop_append_of_le_length (by simp; omega)]
  simp

theorem cacheHasStreamingPartial_of_storage (st : ChatState) (msgs : List Message)
    (p : Message) (hst : st.storage = saveMessages (msgs ++ [p]))
    (hp : p.isStreaming = some true) :
    cacheHasStreamingPartial st = true := by
  unfold cacheHasStreamingPartial
  rw [hst]
  unfold saveMessages
  refine List.any_eq_true.mpr ⟨serializeMessage p,
    List.mem_map_of_mem _ (mem_sliceLast_concat msgs p MAX_MESSAGES (by decide)), ?_⟩
  simp [serializeMessage, hp]

theorem cacheHasStreamingPartial_congr {s t : ChatState} (h : s.storage = t.storage) :
    cacheHasStreamingPartial s = cacheHasStreamingPartial t := by
  simp [cacheHasStreamingPartial, h]

theorem lineStep_cache (ctx : TurnCtx) (acc : LoopAcc) (l : Line) :
    ((lineStep ctx acc l).acc).st.storage = acc.st.storage ∨
    cacheHasStreamingPartial ((lineStep ctx acc l).acc).st = true := by
  obtain ⟨b, p⟩ := l
  cases b <;> cases p <;> try exact Or.inl rfl
  case true.stream content =>
    cases content with
    | none => exact Or.inl rfl
    | some s =>
      by_cases hs : s.isEmpty
      · exact Or.inl (by simp [lineStep, hs, LoopOut.acc])
      · refine Or.inr (cacheHasStreamingPartial_of_storage _ ctx.msgs0
          (partialMessage ctx (acc.fullContent ++ s) acc.documents) ?_ rfl)
        simp [lineStep, hs, LoopOut.acc]
  case true.docs documents =>
    cases documents <;> exact Or.inl rfl

theorem lineStep_cache_eff (ctx : TurnCtx) (acc : LoopAcc) (l : Line)
    (he : isEffectiveStreamLine l = true) :
    cacheHasStreamingPartial ((lineStep ctx acc l).acc).st = true := by
  obtain ⟨b, p⟩ := l
  cases b <;> cases p <;> simp_all [isEffectiveStreamLine]
  case stream content =>
    cases content with
    | none => simp at he
    | some s =>
      simp only [Bool.not_eq_true'] at he
      refine cacheHasStreamingPartial_of_storage _ ctx.msgs0
        (partialMessage ctx (acc.fullContent ++ s) acc.documents) ?_ rfl
      simp [lineStep, he, LoopOut.acc]

theorem processLines_cache (ctx : TurnCtx) (acc : LoopAcc) (ls : List Line)
    (hnd : ls.all (fun l => !isDoneLine l) = true)
    (h : cacheHasStreamingPartial acc.st = true ∨ ls.any isEffectiveStreamLine = true) :
    cacheHasStreamingPartial ((processLines ctx acc ls).acc).st = true := by
  induction ls generalizing acc with
  | nil => simpa using h
  | cons l ls ih =>
    simp only [List.all_cons, Bool.and_eq_true, Bool.not_eq_true'] at hnd
    rw [processLines, lineStep_cont_of_not_done ctx acc l hnd.1]
    have hnd2 : ls.all (fun l => !isDoneLine l) = true := by simpa using hnd.2
    rcases h with hq | hany
    · rcases lineStep_cache ctx acc l with hkeep | hset
      · exact ih _ hnd2 (Or.inl (by rw [cacheHasStreamingPartial_congr hkeep]; exact hq))
      · exact ih _ hnd2 (Or.inl hset)
    · simp only [List.any_cons, Bool.or_eq_true] at hany
      rcases hany with heff | hrest
      · exact ih _ hnd2 (Or.inl (lineStep_cache_eff ctx acc l heff))
      · rcases lineStep_cache ctx acc l with hkeep | hset
        · exact ih _ hnd2 (Or.inr hrest)
        · exact ih _ hnd2 (Or.inl hset)

theorem processLines_keep_or_set (ctx : TurnCtx) (acc : LoopAcc) (ls : List Line)
    (hnd : ls.all (fun l => !isDoneLine l) = true) :
    ((processLines ctx acc ls).acc).st.storage = acc.st.storage ∨
    cacheHasStreamingPartial ((processLines ctx acc ls).acc).st = true := by
  induction ls generalizing acc with
  | nil => exact Or.inl rfl
  | cons l ls ih =>
    simp only [List.all_cons, Bool.and_eq_true, Bool.not_eq_true'] at hnd
    rw [processLines, lineStep_cont_of_not_done ctx acc l hnd.1]
    have hnd2 : ls.all (fun l => !isDoneLine l) = true := by simpa using hnd.2
    rcases lineStep_cache ctx acc l with hkeep | hset
    · rcases ih _ hnd2 with h1 | h2
      · exact Or.inl (h1.trans hkeep)
      · exact Or.inr h2
    · rcases ih _ hnd2 with h1 | h2
      · exact Or.inr (by rw [cacheHasStreamingPartial_congr h1]; exact hset)
      · exact Or.inr h2

theorem processChunks_cache (ctx : TurnCtx) (acc : LoopAcc) (chunks : List (List Line))
    (hnd : noDoneLines chunks = true)
    (h : cacheHasStreamingPartial acc.st = true ∨ hasEffectiveStream chunks = true) :
    cacheHasStreamingPartial ((processChunks ctx acc chunks).acc).st = true := by
  induction chunks generalizing acc with
  | nil => simpa [hasEffectiveStream] using h
  | cons c cs ih =>
    simp only [noDoneLines, List.all_cons, Bool.and_eq_true] at hnd
    rw [processChunks, processLines_cont_of_noDone ctx acc c hnd.1]
    have hnd2 : noDoneLines cs = true := by simp [noDoneLines, hnd.2]
    rcases h with hq | hany
    · exact ih _ hnd2 (Or.inl (processLines_cache ctx acc c hnd.1 (Or.inl hq)))
    · simp only [hasEffectiveStream, List.any_cons, Bool.or_eq_true] at hany
      rcases hany with heff | hrest
      · exact ih _ hnd2 (Or.inl (processLines_cache ctx acc c hnd.1 (Or.inr heff)))
      · -- the head chunk may or may not write; keep the cache fact or defer to the rest
        rcases processLines_keep_or_set ctx acc c hnd.1 with hkeep | hset
        · exact ih _ hnd2 (Or.inr (by simpa [hasEffectiveStream] using hrest))
        · exact ih _ hnd2 (Or.inl hset)

/-! ## Turn-level lemmas -/

theorem streamTurn_noDone (ctx : TurnCtx) (st2 : ChatState) (chunks : List (List Line))
    (terminal : Terminal) (hnd : noDoneLines chunks = true)
    (hterm : terminal = .aborted ∨ terminal = .readerClosed) :
    (streamTurn ctx st2 chunks terminal).messages = st2.messages ∧
    (streamTurn ctx st2 chunks terminal).error = st2.error ∧
    (streamTurn ctx st2 chunks terminal).streaming = inactiveStreaming := by
  simp only [streamTurn]
  rw [processChunks_cont_of_noDone _ _ _ hnd]
  have hp := processChunks_preserves ctx
    ⟨"", [], { st2 with streaming := ⟨true, "", ctx.assistantId⟩ }⟩ chunks
  rcases hterm with h | h <;> subst h <;> exact ⟨hp.1, hp.2.1, rfl⟩

theorem streamTurn_cache (ctx : TurnCtx) (st2 : ChatState) (chunks : List (List Line))
    (terminal : Terminal) (hnd : noDoneLines chunks = true)
    (heff : hasEffectiveStream chunks = true)
    (hterm : terminal = .aborted ∨ terminal = .readerClosed) :
    cacheHasStreamingPartial (streamTurn ctx st2 chunks terminal) = true := by
  simp only [streamTurn]
  rw [processChunks_cont_of_noDone _ _ _ hnd]
  have hq := processChunks_cache ctx
    ⟨"", [], { st2 with streaming := ⟨true, "", ctx.assistantId⟩ }⟩ chunks hnd (Or.inr heff)
  rcases hterm with h | h <;> subst h <;> exact hq

theorem streamTurn_mem (ctx : TurnCtx) (st2 : ChatState) (chunks : List (List Line))
    (terminal : Terminal) (m : Message)
    (hm : m ∈ (streamTurn ctx st2 chunks terminal).messages) :
    m ∈ st2.messages ∨ m.isStreaming = none := by
  simp only [streamTurn] at hm
  revert hm
  cases h : processChunks ctx
      ⟨"", [], { st2 with streaming := ⟨true, "", ctx.assistantId⟩ }⟩ chunks with
  | finished acc =>
    intro hm
    have hp := processChunks_preserves ctx
      ⟨"", [], { st2 with streaming := ⟨true, "", ctx.assistantId⟩ }⟩ chunks
    rw [h] at hp
    simp only [LoopOut.acc] at hp
    simp only [finalizeTurn, commitMessages, List.mem_append] at hm
    rcases hm with hm | hm
    · exact Or.inl (hp.1 ▸ hm)
    · simp only [List.mem_singleton] at hm
      subst hm
      exact Or.inr rfl
  | cont acc =>
    intro hm
    have hp := processChunks_preserves ctx
      ⟨"", [], { st2 with streaming := ⟨true, "", ctx.assistantId⟩ }⟩ chunks
    rw [h] at hp
    simp only [LoopOut.acc] at hp
    cases terminal with
    | readerClosed => exact Or.inl (hp.1 ▸ hm)
    | aborted => exact Or.inl (hp.1 ▸ hm)
    | netFailure msg =>
      simp only [finalizeTurn, rollbackOnError, commitMessages] at hm
      have : m ∈ acc.st.messages := (List.dropLast_sublist acc.st.messages).subset hm
      exact Or.inl (hp.1 ▸ this)

theorem handleSendMessage_mem (st : ChatState) (input userId assistantId : String)
    (now : Nat) (outcome : FetchOutcome) (m : Message)
    (hm : m ∈ (handleSendMessage st input userId assistantId now outcome).messages) :
    m ∈ st.messages ∨ m.isStreaming = none := by
  simp only [handleSendMessage] at hm
  revert hm
  cases hv : validateInput (strTrim input) with
  | some e => intro hm; exact Or.inl hm
  | none =>
    cases outcome with
    | fetchAborted =>
      intro hm
      simp only [finalizeTurn, commitMessages, List.mem_append, List.mem_singleton] at hm
      rcases hm with hm | hm
      · exact Or.inl hm
      · subst hm; exact Or.inr rfl
    | fetchFailure msg =>
      intro hm
      simp only [finalizeTurn, rollbackOnError, commitMessages, List.dropLast_concat] at hm
      exact Or.inl hm
    | httpFailure status =>
      intro hm
      simp only [finalizeTurn, rollbackOnError, commitMessages, List.dropLast_concat] at hm
      exact Or.inl hm
    | noBody =>
      intro hm
      simp only [finalizeTurn, rollbackOnError, commitMessages, List.dropLast_concat] at hm
      exact Or.inl hm
    | ok chunks terminal =>
      intro hm
      rcases streamTurn_mem _ _ chunks terminal m hm with hmem | hnone
      · simp only [commitMessages, List.mem_append, List.mem_singleton] at hmem
        rcases hmem with hmem | hmem
        · exact Or.inl hmem
        · subst hmem; exact Or.inr rfl
      · exact Or.inr hnone

theorem reachableNoReload_no_streaming (st : ChatState) (h : ReachableNoReload st) :
    ∀ m ∈ st.messages, m.isStreaming = none := by
  induction h with
  | init => intro m hm; simp [initialChatState] at hm
  | turn input userId assistantId now outcome hst ih =>
    intro m hm
    rcases handleSendMessage_mem _ input userId assistantId now outcome m hm with h1 | h2
    · exact ih m h1
    · exact h2

/-! ## Claims -/

/-- **C1.**  The claim says a parsed `error` event aborts the turn and
surfaces the carried message.  Evaluating the embedded `handleSendMessage` on
a stream that carries `error{"boom"}` and then closes shows otherwise: the
`throw` of the `error` case lands in the same `catch` that swallows
`JSON.parse` failures ("Ignore parsing errors for incomplete chunks"), so the
loop continues, nothing is surfaced (`error` stays `none`, not `"boom"`), and
only the absence of an appended assistant message matches the claim. -/
theorem c1_errorEvent_swallowed :
    (handleSendMessage initialChatState "hi" "u1" "a1" 0
        (.ok [[⟨true, .errorEvent (some "boom")⟩]] .readerClosed)).messages
      = [⟨"u1", .user, "hi", none, 0, none⟩]
  ∧ (handleSendMessage initialChatState "hi" "u1" "a1" 0
        (.ok [[⟨true, .errorEvent (some "boom")⟩]] .readerClosed)).error = none := by
  decide

/-- **C2.**  For every conversation state, a stream carrying
`stream{"a"}`, `stream{"b"}`, `docs{[d1]}`, `done` appends exactly one
assistant message, with content `"ab"` and documents `[d1]`, after the turn's
user message. -/
theorem c2_stream_docs_done (st : ChatState) (input userId assistantId : String)
    (now : Nat) (d1 : Doc) (terminal : Terminal)
    (hval : validateInput (strTrim input) = none) :
    (handleSendMessage st input userId assistantId now
        (.ok [[⟨true, .stream (some "a")⟩, ⟨true, .stream (some "b")⟩,
               ⟨true, .docs (some [d1])⟩, ⟨true, .done⟩]] terminal)).messages
      = st.messages ++ [⟨userId, .user, strTrim input, none, now, none⟩,
                        ⟨assistantId, .assistant, "ab", some [d1], now, none⟩] := by
  simp only [handleSendMessage, hval]
  simp [streamTurn, processChunks, processLines, lineStep, commitMessages, finalizeTurn,
    show ("a" : String).isEmpty = false from rfl,
    show ("b" : String).isEmpty = false from rfl,
    show ("" : String) ++ "a" = "a" from rfl,
    show ("a" : String) ++ "b" = "ab" from rfl]

/-- Witness for **C2** at a concrete state, input and document. -/
theorem c2_stream_docs_done_witness :
    validateInput (strTrim "What is this?") = none ∧
    (handleSendMessage initialChatState "What is this?" "u1" "a1" 5
        (.ok [[⟨true, .stream (some "a")⟩, ⟨true, .stream (some "b")⟩,
               ⟨true, .docs (some [⟨some "snippet", some ⟨some ⟨some 3⟩, some "doc.pdf"⟩⟩])⟩,
               ⟨true, .done⟩]] .readerClosed)).messages
      = initialChatState.messages
          ++ [⟨"u1", .user, strTrim "What is this?", none, 5, none⟩,
              ⟨"a1", .assistant, "ab",
                some [⟨some "snippet", some ⟨some ⟨some 3⟩, some "doc.pdf"⟩⟩], 5, none⟩] :=
  ⟨by decide, c2_stream_docs_done initialChatState "What is this?" "u1" "a1" 5
    ⟨some "snippet", some ⟨some ⟨some 3⟩, some "doc.pdf"⟩⟩ .readerClosed (by decide)⟩

/-- **C3.**  For every conversation state, a non-2xx initial response rolls the
optimistic user message back — the conversation is exactly what it was before
the submission — and surfaces the status in the error banner. -/
theorem c3_httpFailure_rollback (st : ChatState) (input userId assistantId : String)
    (now status : Nat) (hval : validateInput (strTrim input) = none) :
    (handleSendMessage st input userId assistantId now (.httpFailure status)).messages
        = st.messages
  ∧ (handleSendMessage st input userId assistantId now (.httpFailure status)).error
      = some ("API request failed with status " ++ toString status) := by
  simp only [handleSendMessage, hval]
  constructor
  · simp [finalizeTurn, rollbackOnError, commitMessages, List.dropLast_concat]
  · simp [finalizeTurn, rollbackOnError, commitMessages]

/-- Witness for **C3** at a concrete state and status. -/
theorem c3_httpFailure_rollback_witness :
    validateInput (strTrim "hi") = none ∧
    ((handleSendMessage initialChatState "hi" "u1" "a1" 0 (.httpFailure 500)).messages
        = initialChatState.messages
      ∧ (handleSendMessage initialChatState "hi" "u1" "a1" 0 (.httpFailure 500)).error
          = some ("API request failed with status " ++ toString 500)) :=
  ⟨by decide, c3_httpFailure_rollback initialChatState "hi" "u1" "a1" 0 500 (by decide)⟩

/-- **C4.**  Persisting a 25-message conversation and rehydrating from the
cache yields exactly the 20 most recent messages, in order, timestamps
reconstructed from their serialized form. -/
theorem c4_persist25_rehydrate20 (msgs : List Message) (h : msgs.length = 25) :
    loadStoredMessages (saveMessages msgs) = msgs.drop 5 := by
  unfold loadStoredMessages saveMessages
  simp only [Option.getD_some, List.map_map]
  rw [show rehydrateMessage ∘ serializeMessage = id from funext rehydrateMessage_serializeMessage,
    List.map_id]
  unfold sliceLast
  rw [h]
  norm_num [MAX_MESSAGES]

/-- Witness for **C4** on 25 pairwise distinct messages. -/
theorem c4_persist25_rehydrate20_witness :
    ((List.range 25).map
        (fun i => (⟨toString i, .user, "q", none, i, none⟩ : Message))).length = 25 ∧
    loadStoredMessages (saveMessages ((List.range 25).map
        (fun i => (⟨toString i, .user, "q", none, i, none⟩ : Message))))
      = ((List.range 25).map
        (fun i => (⟨toString i, .user, "q", none, i, none⟩ : Message))).drop 5 :=
  ⟨by decide, c4_persist25_rehydrate20 _ (by decide)⟩

/-- A `data: `-marked line whose payload fails `JSON.parse` is invisible to
the whole turn: inserting it anywhere in any chunk leaves the turn's result
unchanged on the nose. -/
theorem streamTurn_insert_malformed (ctx : TurnCtx) (st2 : ChatState) (b : Bool)
    (xs ys : List Line) (pre post : List (List Line)) (terminal : Terminal) :
    streamTurn ctx st2 (pre ++ (xs ++ ⟨b, .malformed⟩ :: ys) :: post) terminal
      = streamTurn ctx st2 (pre ++ (xs ++ ys) :: post) terminal := by
  simp only [streamTurn]
  rw [processChunks_insert_malformed]

/-- **C5.**  A line whose payload is not well-formed JSON is skipped silently:
deleting it from the stream changes nothing about the turn — accumulated
content, pending documents, conversation and error state are all identical,
and in particular the turn is not aborted by it. -/
theorem c5_malformed_line_skipped (st : ChatState) (input userId assistantId : String)
    (now : Nat) (b : Bool) (xs ys : List Line) (pre post : List (List Line))
    (terminal : Terminal) :
    handleSendMessage st input userId assistantId now
        (.ok (pre ++ (xs ++ ⟨b, .malformed⟩ :: ys) :: post) terminal)
      = handleSendMessage st input userId assistantId now
        (.ok (pre ++ (xs ++ ys) :: post) terminal) := by
  simp only [handleSendMessage]
  cases hv : validateInput (strTrim input) with
  | some e => rfl
  | none => exact streamTurn_insert_malformed _ _ b xs ys pre post terminal

/-- **C6.**  Aborting mid-stream (user stop or a superseding submission),
before any `done` event, leaves the conversation at exactly its pre-turn
state plus the turn's one user message, surfaces no error, and clears the
streaming state without committing a partial assistant message. -/
theorem c6_abort_midstream (st : ChatState) (input userId assistantId : String)
    (now : Nat) (chunks : List (List Line))
    (hval : validateInput (strTrim input) = none)
    (hnd : noDoneLines chunks = true) :
    (handleSendMessage st input userId assistantId now (.ok chunks .aborted)).messages
        = st.messages ++ [⟨userId, .user, strTrim input, none, now, none⟩]
  ∧ (handleSendMessage st input userId assistantId now (.ok chunks .aborted)).error = none
  ∧ (handleSendMessage st input userId assistantId now (.ok chunks .aborted)).streaming
        = inactiveStreaming := by
  simp only [handleSendMessage, hval]
  exact streamTurn_noDone _ _ chunks .aborted hnd (Or.inl rfl)

/-- Witness for **C6**: an abort after one fragment. -/
theorem c6_abort_midstream_witness :
    validateInput (strTrim "hi") = none ∧
    noDoneLines [[⟨true, .stream (some "x")⟩]] = true ∧
    ((handleSendMessage initialChatState "hi" "u1" "a1" 0
        (.ok [[⟨true, .stream (some "x")⟩]] .aborted)).messages
          = initialChatState.messages ++ [⟨"u1", .user, strTrim "hi", none, 0, none⟩]
      ∧ (handleSendMessage initialChatState "hi" "u1" "a1" 0
          (.ok [[⟨true, .stream (some "x")⟩]] .aborted)).error = none
      ∧ (handleSendMessage initialChatState "hi" "u1" "a1" 0
          (.ok [[⟨true, .stream (some "x")⟩]] .aborted)).streaming = inactiveStreaming) :=
  ⟨by decide, by decide,
    c6_abort_midstream initialChatState "hi" "u1" "a1" 0 [[⟨true, .stream (some "x")⟩]]
      (by decide) (by decide)⟩

/-- The session whose turn crashes mid-stream (aborted after one fragment):
its in-memory conversation holds only the user message, but the
crash-recovery save has left the partial assistant message in the cache. -/
def c7CrashTurn : ChatState :=
  handleSendMessage initialChatState "hi" "u1" "a1" 0
    (.ok [[⟨true, .stream (some "x")⟩]] .aborted)

/-- Reloading the page over that cache rehydrates the partial message,
`isStreaming = true` included. -/
def c7Rehydrated : ChatState := loadSession c7CrashTurn.storage

/-- One further turn appends a user message after the rehydrated partial. -/
def c7Bad : ChatState :=
  handleSendMessage c7Rehydrated "yo" "u2" "a2" 1 (.ok [] .readerClosed)

/-- **C7** fails as stated: the claim quantifies over states reached after
rehydration, but rehydrating a crash-recovery cache restores a message with
`isStreaming = true`, and the next submission appends the user message after
it — the streaming-marked message is then not the most recently appended. -/
theorem c7_counterexample : Reachable c7Bad ∧ ¬ streamingInvariant c7Bad.messages :=
  ⟨Reachable.turn "yo" "u2" "a2" 1 (.ok [] .readerClosed)
      (Reachable.reload (Reachable.turn "hi" "u1" "a1" 0
        (.ok [[⟨true, .stream (some "x")⟩]] .aborted) Reachable.init)),
    by unfold streamingInvariant; decide⟩

/-- **C7 (amended).**  In every conversation state reachable without
rehydrating a persisted conversation, at most one message has
`isStreaming = true` and none before the last does (in fact the turn logic
itself never appends a streaming-marked message to the in-memory
conversation; only rehydration can introduce one). -/
theorem c7_streamingInvariant_noReload (st : ChatState) (h : ReachableNoReload st) :
    streamingInvariant st.messages := by
  have hall := reachableNoReload_no_streaming st h
  constructor
  · have hnil : st.messages.filter (fun m => m.isStreaming == some true) = [] := by
      rw [List.filter_eq_nil_iff]
      intro m hm
      simp [hall m hm]
    simp [hnil]
  · intro m hm
    rw [hall m ((List.dropLast_sublist st.messages).subset hm)]
    simp

/-- Witness for **C7 (amended)** at a state reached by one full turn. -/
theorem c7_streamingInvariant_noReload_witness :
    streamingInvariant (handleSendMessage initialChatState "hi" "u1" "a1" 0
      (.ok [[⟨true, .stream (some "x")⟩, ⟨true, .done⟩]] .readerClosed)).messages :=
  c7_streamingInvariant_noReload _
    (ReachableNoReload.turn "hi" "u1" "a1" 0
      (.ok [[⟨true, .stream (some "x")⟩, ⟨true, .done⟩]] .readerClosed)
      ReachableNoReload.init)

/-- **C8.**  The upload client: a non-success response moves `uploading` to
`error` with the fixed message, a success response to `success`; the reset
timer returns any state whatsoever to idle — regardless of what the user did
in between — and its delay is the fixed 3000 ms. -/
theorem c8_upload_transitions :
    (∀ m : String, uploadStep ⟨.uploading, m⟩ (.response false)
        = ⟨.error, "Upload failed. Please try again."⟩)
  ∧ (∀ m : String, uploadStep ⟨.uploading, m⟩ (.response true)
        = ⟨.success, "File uploaded successfully!"⟩)
  ∧ (∀ s : UploadState, uploadStep s .timerFire = ⟨.idle, "Upload PDF File"⟩)
  ∧ uploadResetDelayMs = 3000 :=
  ⟨fun _ => rfl, fun _ => rfl, fun _ => rfl, rfl⟩

/-- **C9.**  If the body ends without a `done` event, no assistant message is
appended — the conversation is the pre-turn state plus the user message — and
the accumulated fragment content survives nowhere in memory: the streaming
state is cleared and no message carries it. -/
theorem c9_close_without_done (st : ChatState) (input userId assistantId : String)
    (now : Nat) (chunks : List (List Line))
    (hval : validateInput (strTrim input) = none)
    (hnd : noDoneLines chunks = true) :
    (handleSendMessage st input userId assistantId now (.ok chunks .readerClosed)).messages
        = st.messages ++ [⟨userId, .user, strTrim input, none, now, none⟩]
  ∧ (handleSendMessage st input userId assistantId now (.ok chunks .readerClosed)).error
        = none
  ∧ (handleSendMessage st input userId assistantId now (.ok chunks .readerClosed)).streaming
        = inactiveStreaming := by
  simp only [handleSendMessage, hval]
  exact streamTurn_noDone _ _ chunks .readerClosed hnd (Or.inr rfl)

/-- Witness for **C9**: connection closes after two fragments, no `done`. -/
theorem c9_close_without_done_witness :
    validateInput (strTrim "hi") = none ∧
    noDoneLines [[⟨true, .stream (some "x")⟩], [⟨true, .stream (some "y")⟩]] = true ∧
    ((handleSendMessage initialChatState "hi" "u1" "a1" 0
        (.ok [[⟨true, .stream (some "x")⟩], [⟨true, .stream (some "y")⟩]] .readerClosed)).messages
          = initialChatState.messages ++ [⟨"u1", .user, strTrim "hi", none, 0, none⟩]
      ∧ (handleSendMessage initialChatState "hi" "u1" "a1" 0
          (.ok [[⟨true, .stream (some "x")⟩], [⟨true, .stream (some "y")⟩]] .readerClosed)).error
            = none
      ∧ (handleSendMessage initialChatState "hi" "u1" "a1" 0
          (.ok [[⟨true, .stream (some "x")⟩], [⟨true, .stream (some "y")⟩]] .readerClosed)).streaming
            = inactiveStreaming) :=
  ⟨by decide, by decide,
    c9_close_without_done initialChatState "hi" "u1" "a1" 0
      [[⟨true, .stream (some "x")⟩], [⟨true, .stream (some "y")⟩]] (by decide) (by decide)⟩

/-- A turn that ends in a mid-stream network error after one fragment: the
rollback's `setMessages` re-triggers the persistence effect, which rewrites
the cache from the rolled-back conversation — without the partial message. -/
def c10ErrorTurn : ChatState :=
  handleSendMessage initialChatState "hi" "u1" "a1" 0
    (.ok [[⟨true, .stream (some "x")⟩]] (.netFailure "network error"))

/-- **C10** fails as stated for the error ending: after a turn that ends in a
mid-stream error, the cache no longer contains the partial assistant message
— the error-path rollback re-persisted the conversation over it. -/
theorem c10_counterexample :
    c10ErrorTurn.error = some "network error"
  ∧ cacheHasStreamingPartial c10ErrorTurn = false := by
  decide

/-- **C10 (amended).**  After a turn that ends in abort or in connection
close without `done`, having processed at least one effective `stream`
fragment, the persisted cache still contains a partial assistant message with
`isStreaming = true` (written by the last fragment's crash-recovery save) —
nothing removes it at turn end.  A turn ending in a mid-stream error instead
re-persists the rolled-back conversation, dropping the partial. -/
theorem c10_partial_survives (st : ChatState) (input userId assistantId : String)
    (now : Nat) (chunks : List (List Line)) (terminal : Terminal)
    (hval : validateInput (strTrim input) = none)
    (hnd : noDoneLines chunks = true)
    (heff : hasEffectiveStream chunks = true)
    (hterm : terminal = .aborted ∨ terminal = .readerClosed) :
    cacheHasStreamingPartial
      (handleSendMessage st input userId assistantId now (.ok chunks terminal)) = true := by
  simp only [handleSendMessage, hval]
  exact streamTurn_cache _ _ chunks terminal hnd heff hterm

/-- Witness for **C10 (amended)**: one fragment, then an abort. -/
theorem c10_partial_survives_witness :
    validateInput (strTrim "hi") = none ∧
    noDoneLines [[⟨true, .stream (some "x")⟩]] = true ∧
    hasEffectiveStream [[⟨true, .stream (some "x")⟩]] = true ∧
    cacheHasStreamingPartial (handleSendMessage initialChatState "hi" "u1" "a1" 0
      (.ok [[⟨true, .stream (some "x")⟩]] .aborted)) = true :=
  ⟨by decide, by decide, by decide,
    c10_partial_survives initialChatState "hi" "u1" "a1" 0 [[⟨true, .stream (some "x")⟩]]
      .aborted (by decide) (by decide) (by decide) (Or.inl rfl)⟩
